import Mathlib

set_option maxRecDepth 8000

namespace Rubble

/-! Shallow embedding of the data-channel responder
(src/src/ble/responder.rs) and of the P-256 key-agreement module
(src/rubble/src/p256.rs). Types the responder imports from the link-layer
modules of the same repository (the packet queue, the PDU and feature-set
types and the shared error enum) are not among the provided source files
and are modelled from the spec, as each doc comment marks. -/

/-- Modelled from the spec: the error taxonomy of section 7 (the shared
Error enum of the repository is not among the provided sources). Eof
signals an empty RX queue; queueFull a reply that could not be enqueued. -/
inductive Error where
  | eof
  | queueFull
deriving DecidableEq

/-- Modelled from the spec: the FeatureSet bitmask of locally supported
link-layer features. -/
structure FeatureSet where
  bits : Nat
deriving DecidableEq

/-- Modelled from the spec: the process-wide immutable constant
FeatureSet::supported. The spec leaves the concrete bit value open; the
model fixes an arbitrary constant. -/
def FeatureSet.supported : FeatureSet := ⟨1⟩

/-- Modelled from the spec: LL Control PDUs -- FeatureReq, FeatureRsp and
UnknownRsp, plus an open set of unsupported opcodes represented by the
opcode byte. -/
inductive ControlPdu where
  | featureReq (features : FeatureSet)
  | featureRsp (slave_features : FeatureSet)
  | unknownRsp (unknown_type : Nat)
  | unsupported (op : Nat)
deriving DecidableEq

/-- Modelled from the spec: the opcode each Control PDU carries. FeatureReq,
FeatureRsp and UnknownRsp carry the fixed Bluetooth opcodes 0x08, 0x09 and
0x07; an unsupported PDU is represented by its opcode byte directly. -/
def ControlPdu.opcode : ControlPdu → Nat
  | .featureReq _ => 0x08
  | .featureRsp _ => 0x09
  | .unknownRsp _ => 0x07
  | .unsupported op => op

/-- Discriminator for the FeatureReq variant. -/
def ControlPdu.isFeatureReq : ControlPdu → Bool
  | .featureReq _ => true
  | _ => false

/-- Modelled from the spec: a data-channel PDU. The variant is fixed by
link-layer framing. A Control payload is carried here already decoded: the
read() decoding the responder calls lives in a link-layer module that is
not among the provided sources and is total at that call site. -/
inductive Pdu where
  | control (data : ControlPdu)
  | dataStart (message : List Nat)
  | dataCont (message : List Nat)
deriving DecidableEq

/-- Modelled from the spec: the commit-or-reject decision a consume
callback returns (section 4.1). -/
inductive Consume (α : Type) where
  | commit (val : α)
  | reject
deriving DecidableEq

/-- Mirror of Consume::on_success as the responder uses it: commit exactly
when the enqueue attempt succeeded. -/
def Consume.onSuccess : Except Error Unit → Consume Unit
  | .ok _ => .commit ()
  | .error _ => .reject

/-- Modelled from the spec: the TX half of the bounded packet queue, as a
capacity and the enqueued packets, oldest first. -/
structure Producer where
  capacity : Nat
  items : List Pdu
deriving DecidableEq

/-- Modelled from the spec: Producer::produce_pdu / try_enqueue. Appends
the packet when the queue has room, else fails with queueFull and leaves
the queue unchanged. -/
def Producer.producePdu (tx : Producer) (p : Pdu) : Except Error Unit × Producer :=
  if tx.items.length < tx.capacity then (.ok (), { tx with items := tx.items ++ [p] })
  else (.error Error.queueFull, tx)

/-- Modelled from the spec: the RX half of the queue, the packets waiting
to be processed, oldest first. -/
abbrev Consumer := List Pdu

/-- Modelled from the spec: Consumer::has_data. -/
def Consumer.hasData (rx : Consumer) : Bool := !rx.isEmpty

/-- Modelled from the spec: Consumer::consume_pdu_with (section 4.1).
Offers the head packet to the callback; commit removes it, reject leaves it
at the head for the next call. The callback threads the state it may mutate
(for the responder: the TX producer and the L2CAP state). An empty queue
yields Error.eof; a rejected head surfaces as Error.queueFull, the
condition the taxonomy of section 7 attaches to a reply that could not be
sent. -/
def Consumer.consumePduWith {γ : Type} (rx : Consumer) (st : γ)
    (f : Pdu → γ → Consume Unit × γ) : Except Error Unit × Consumer × γ :=
  match rx with
  | [] => (.error Error.eof, [], st)
  | pdu :: rest =>
    match f pdu st with
    | (.commit _, st2) => (.ok (), rest, st2)
    | (.reject, st2) => (.error Error.queueFull, pdu :: rest, st2)

/-- Modelled from the spec: the external L2CAP reassembly collaborator,
interface only (section 6): start- and continuation-fragment handlers that
receive the fragment and the TX producer, may mutate their own state and
the producer, and decide commit or reject. -/
structure L2CAPModel (σ : Type) where
  processStart : List Nat → σ → Producer → Consume Unit × σ × Producer
  processCont : List Nat → σ → Producer → Consume Unit × σ × Producer

/-- The responder of src/src/ble/responder.rs (struct Responder): the TX
producer, the optional RX consumer (an Option, mirroring the take and
restore dance of with_rx) and the L2CAP collaborator, split into its fixed
handlers and its mutable state. -/
structure Responder (σ : Type) where
  tx : Producer
  rx : Option Consumer
  l2cap : L2CAPModel σ
  l2capState : σ

/-- Mirror of Responder::new: stores the consumer as Some. -/
def Responder.new {σ : Type} (tx : Producer) (rx : Consumer) (l2cap : L2CAPModel σ)
    (l2capState : σ) : Responder σ :=
  ⟨tx, some rx, l2cap, l2capState⟩

/-- Mirror of Responder::with_rx: takes the consumer out of self.rx (the
unwrap of a missing consumer is modelled as none), runs the callback on the
consumer and the remaining state, and restores the consumer. -/
def Responder.withRx {σ β : Type} (r : Responder σ)
    (f : Consumer → Producer → σ → β × Consumer × Producer × σ) :
    Option (β × Responder σ) :=
  match r.rx with
  | none => none
  | some q =>
    match f q r.tx r.l2capState with
    | (b, q2, tx2, s2) => some (b, ⟨tx2, some q2, r.l2cap, s2⟩)

/-- Mirror of Responder::has_work: with_rx over has_data; nothing is
mutated. -/
def Responder.hasWork {σ : Type} (r : Responder σ) : Option (Bool × Responder σ) :=
  r.withRx fun q tx s => (Consumer.hasData q, q, tx, s)

/-- Mirror of the reply the closure in Responder::process_one computes for
an incoming LL Control PDU: FeatureReq is answered with FeatureRsp carrying
the local FeatureSet, every other PDU with UnknownRsp carrying the incoming
opcode. -/
def llReply (c : ControlPdu) : ControlPdu :=
  match c with
  | .featureReq _ => .featureRsp FeatureSet.supported
  | _ => .unknownRsp (ControlPdu.opcode c)

/-- Mirror of Responder::process_one: consume at most the head RX packet.
A Control PDU is answered on TX and committed exactly when the reply fits
(Consume.onSuccess); data fragments are forwarded to the L2CAP collaborator
and its decision is returned unchanged. -/
def Responder.processOne {σ : Type} (r : Responder σ) :
    Option (Except Error Unit × Responder σ) :=
  r.withRx fun rx tx s =>
    Consumer.consumePduWith rx (tx, s) fun pdu st =>
      match pdu with
      | .control data =>
        let response := llReply data
        let (res, tx2) := Producer.producePdu st.1 (Pdu.control response)
        (Consume.onSuccess res, (tx2, st.2))
      | .dataStart message =>
        match r.l2cap.processStart message st.2 st.1 with
        | (dec, s2, tx2) => (dec, (tx2, s2))
      | .dataCont message =>
        match r.l2cap.processCont message st.2 st.1 with
        | (dec, s2, tx2) => (dec, (tx2, s2))

/-- One call of the scheduling loop of the caller: has_work or
process_one. -/
inductive ROp where
  | hasWorkOp
  | processOneOp

/-- Runs a sequence of has_work and process_one calls, propagating an
unwrap failure (none) of the internal take of the consumer. -/
def runOps {σ : Type} : List ROp → Responder σ → Option (Responder σ)
  | [], r => some r
  | .hasWorkOp :: ops, r =>
    match r.hasWork with
    | none => none
    | some (_, r2) => runOps ops r2
  | .processOneOp :: ops, r =>
    match r.processOne with
    | none => none
    | some (_, r2) => runOps ops r2

/-- A do-nothing L2CAP collaborator used by concrete witnesses. -/
def l2capNop : L2CAPModel Unit :=
  ⟨fun _ s tx => (Consume.commit (), s, tx), fun _ s tx => (Consume.commit (), s, tx)⟩

theorem aux_withRx_some {σ β : Type} (r : Responder σ) (q : Consumer)
    (f : Consumer → Producer → σ → β × Consumer × Producer × σ)
    (h : r.rx = some q) :
    ∃ b r2, r.withRx f = some (b, r2) ∧ ∃ q2, r2.rx = some q2 := by
  obtain ⟨tx, rx, l2, s⟩ := r
  cases h
  rcases hf : f q tx s with ⟨b, q2, tx2, s2⟩
  exact ⟨b, ⟨tx2, some q2, l2, s2⟩, by simp [Responder.withRx, hf], q2, rfl⟩

theorem aux_hasWork_some {σ : Type} (r : Responder σ) (q : Consumer)
    (h : r.rx = some q) :
    ∃ b r2, r.hasWork = some (b, r2) ∧ ∃ q2, r2.rx = some q2 :=
  aux_withRx_some r q _ h

theorem aux_processOne_some {σ : Type} (r : Responder σ) (q : Consumer)
    (h : r.rx = some q) :
    ∃ b r2, r.processOne = some (b, r2) ∧ ∃ q2, r2.rx = some q2 :=
  aux_withRx_some r q _ h

theorem aux_runOps_some {σ : Type} (ops : List ROp) :
    ∀ (r : Responder σ) (q : Consumer), r.rx = some q →
      ∃ r2, runOps ops r = some r2 ∧ ∃ q2, r2.rx = some q2 := by
  induction ops with
  | nil => exact fun r q h => ⟨r, rfl, q, h⟩
  | cons op ops ih =>
    intro r q h
    cases op with
    | hasWorkOp =>
      obtain ⟨b, r2, he, q2, h2⟩ := aux_hasWork_some r q h
      obtain ⟨r3, h3, h4⟩ := ih r2 q2 h2
      exact ⟨r3, by simp [runOps, he, h3], h4⟩
    | processOneOp =>
      obtain ⟨b, r2, he, q2, h2⟩ := aux_processOne_some r q h
      obtain ⟨r3, h3, h4⟩ := ih r2 q2 h2
      exact ⟨r3, by simp [runOps, he, h3], h4⟩

/-- C6: with an empty RX queue, process_one returns the Eof error and
leaves the responder -- TX queue, RX queue and L2CAP state -- unchanged:
Eof is the normal no-work signal and no dispatch is performed. -/
theorem processOne_empty_eof {σ : Type} (r : Responder σ) (h : r.rx = some []) :
    r.processOne = some (.error Error.eof, r) := by
  obtain ⟨tx, rx, l2, s⟩ := r
  cases h
  rfl

theorem processOne_empty_eof_witness :
    (Responder.new ⟨4, []⟩ [] l2capNop ()).processOne
      = some (.error Error.eof, Responder.new ⟨4, []⟩ [] l2capNop ()) :=
  processOne_empty_eof (Responder.new ⟨4, []⟩ [] l2capNop ()) rfl

/-- C7: has_work returns true exactly when the RX queue is non-empty, and
leaves the responder, in particular the queue contents, unchanged. -/
theorem hasWork_iff_nonempty {σ : Type} (r : Responder σ) (q : Consumer)
    (h : r.rx = some q) :
    r.hasWork = some (Consumer.hasData q, r) ∧ (Consumer.hasData q = true ↔ q ≠ []) := by
  constructor
  · obtain ⟨tx, rx, l2, s⟩ := r
    cases h
    rfl
  · cases q <;> simp [Consumer.hasData]

theorem aux_control_commit {σ : Type} (r : Responder σ) (c : ControlPdu)
    (rest : List Pdu) (h : r.rx = some (Pdu.control c :: rest))
    (hlt : r.tx.items.length < r.tx.capacity) :
    r.processOne = some (.ok (),
      { r with tx := { r.tx with items := r.tx.items ++ [Pdu.control (llReply c)] },
               rx := some rest }) := by
  obtain ⟨⟨cap, items⟩, rx, l2, s⟩ := r
  cases h
  simp only [Responder.processOne, Responder.withRx, Consumer.consumePduWith,
    Producer.producePdu, Consume.onSuccess] at *
  simp [hlt]

theorem aux_control_reject {σ : Type} (r : Responder σ) (c : ControlPdu)
    (rest : List Pdu) (h : r.rx = some (Pdu.control c :: rest))
    (hge : ¬ r.tx.items.length < r.tx.capacity) :
    r.processOne = some (.error Error.queueFull, r) := by
  obtain ⟨⟨cap, items⟩, rx, l2, s⟩ := r
  cases h
  simp only [Responder.processOne, Responder.withRx, Consumer.consumePduWith,
    Producer.producePdu, Consume.onSuccess] at *
  simp [hge]

/-- C2: with a Control PDU at the head of the RX queue, the reply is
enqueued on TX and the PDU committed exactly when the enqueue fits; when TX
is full the call leaves the responder completely unchanged, so the same PDU
is re-offered at the head on the next call and, the state being identical,
a later call that finds TX space enqueues exactly one reply. -/
theorem control_commit_iff_txroom {σ : Type} (r : Responder σ) (c : ControlPdu)
    (rest : List Pdu) (h : r.rx = some (Pdu.control c :: rest)) :
    (r.tx.items.length < r.tx.capacity →
        r.processOne = some (.ok (),
          { r with tx := { r.tx with items := r.tx.items ++ [Pdu.control (llReply c)] },
                   rx := some rest })) ∧
    (¬ r.tx.items.length < r.tx.capacity →
        r.processOne = some (.error Error.queueFull, r)) :=
  ⟨fun hlt => aux_control_commit r c rest h hlt,
   fun hge => aux_control_reject r c rest h hge⟩

theorem control_commit_iff_txroom_witness :
    (Responder.new ⟨2, []⟩ [Pdu.control (ControlPdu.unsupported 3)] l2capNop ()).processOne
        = some (.ok (), { Responder.new ⟨2, []⟩ [Pdu.control (ControlPdu.unsupported 3)] l2capNop () with
            tx := ⟨2, [Pdu.control (llReply (ControlPdu.unsupported 3))]⟩, rx := some [] }) ∧
    (Responder.new ⟨0, []⟩ [Pdu.control (ControlPdu.unsupported 3)] l2capNop ()).processOne
        = some (.error Error.queueFull,
            Responder.new ⟨0, []⟩ [Pdu.control (ControlPdu.unsupported 3)] l2capNop ()) :=
  ⟨(control_commit_iff_txroom _ _ _ rfl).1 (by decide),
   (control_commit_iff_txroom _ _ _ rfl).2 (by decide)⟩

/-- C3: the reply to an incoming Control PDU that fits on TX: FeatureReq is
answered by exactly one FeatureRsp carrying the locally supported
FeatureSet; every other Control PDU, known or unknown, is answered by
exactly one UnknownRsp carrying the incoming opcode, and that fallback is a
committed successful reply, not an error. -/
theorem control_reply_content {σ : Type} (r : Responder σ) (c : ControlPdu)
    (rest : List Pdu) (h : r.rx = some (Pdu.control c :: rest))
    (room : r.tx.items.length < r.tx.capacity) :
    r.processOne = some (.ok (),
        { r with tx := { r.tx with items := r.tx.items ++ [Pdu.control (llReply c)] },
                 rx := some rest }) ∧
    (∀ fs, llReply (ControlPdu.featureReq fs) = ControlPdu.featureRsp FeatureSet.supported) ∧
    (ControlPdu.isFeatureReq c = false →
        llReply c = ControlPdu.unknownRsp (ControlPdu.opcode c)) := by
  refine ⟨aux_control_commit r c rest h room, fun fs => rfl, ?_⟩
  cases c <;> simp [ControlPdu.isFeatureReq, llReply]

theorem control_reply_content_witness :
    (Responder.new ⟨1, []⟩ [Pdu.control (ControlPdu.unsupported 16)] l2capNop ()).processOne
        = some (.ok (), { Responder.new ⟨1, []⟩ [Pdu.control (ControlPdu.unsupported 16)] l2capNop () with
            tx := ⟨1, [Pdu.control (llReply (ControlPdu.unsupported 16))]⟩, rx := some [] }) ∧
    (∀ fs, llReply (ControlPdu.featureReq fs) = ControlPdu.featureRsp FeatureSet.supported) ∧
    (ControlPdu.isFeatureReq (ControlPdu.unsupported 16) = false →
        llReply (ControlPdu.unsupported 16)
          = ControlPdu.unknownRsp (ControlPdu.opcode (ControlPdu.unsupported 16))) :=
  control_reply_content _ _ _ rfl (by decide)

/-- C8: a DataStart or DataCont fragment at the head of the RX queue is
forwarded to the matching L2CAP handler together with the TX producer, and
the commit-or-reject decision of the collaborator is propagated unchanged:
commit removes the fragment, reject keeps it at the head, and in both cases
the resulting producer and collaborator state are exactly the ones the
collaborator returned. -/
theorem l2cap_forwarding {σ : Type} (r : Responder σ) (m : List Nat)
    (rest : List Pdu) :
    (∀ s2 tx2, r.rx = some (Pdu.dataStart m :: rest) →
      (r.l2cap.processStart m r.l2capState r.tx = (Consume.commit (), s2, tx2) →
          r.processOne = some (.ok (), ⟨tx2, some rest, r.l2cap, s2⟩)) ∧
      (r.l2cap.processStart m r.l2capState r.tx = (Consume.reject, s2, tx2) →
          r.processOne = some (.error Error.queueFull,
            ⟨tx2, some (Pdu.dataStart m :: rest), r.l2cap, s2⟩))) ∧
    (∀ s2 tx2, r.rx = some (Pdu.dataCont m :: rest) →
      (r.l2cap.processCont m r.l2capState r.tx = (Consume.commit (), s2, tx2) →
          r.processOne = some (.ok (), ⟨tx2, some rest, r.l2cap, s2⟩)) ∧
      (r.l2cap.processCont m r.l2capState r.tx = (Consume.reject, s2, tx2) →
          r.processOne = some (.error Error.queueFull,
            ⟨tx2, some (Pdu.dataCont m :: rest), r.l2cap, s2⟩))) := by
  obtain ⟨tx, rx, l2, s⟩ := r
  constructor
  · intro s2 tx2 h
    cases h
    constructor
    · intro hps
      simp only [] at hps
      simp [Responder.processOne, Responder.withRx, Consumer.consumePduWith, hps]
    · intro hps
      simp only [] at hps
      simp [Responder.processOne, Responder.withRx, Consumer.consumePduWith, hps]
  · intro s2 tx2 h
    cases h
    constructor
    · intro hps
      simp only [] at hps
      simp [Responder.processOne, Responder.withRx, Consumer.consumePduWith, hps]
    · intro hps
      simp only [] at hps
      simp [Responder.processOne, Responder.withRx, Consumer.consumePduWith, hps]

/-- C10: starting from Responder::new, every sequence of has_work and
process_one calls succeeds (the internal take and unwrap of the consumer
never fails) and ends with the rx field populated (Some). -/
theorem rx_always_populated {σ : Type} (ops : List ROp) (tx : Producer)
    (rx : Consumer) (l2 : L2CAPModel σ) (s : σ) :
    ∃ r2, runOps ops (Responder.new tx rx l2 s) = some r2 ∧ r2.rx.isSome = true := by
  obtain ⟨r2, h1, q2, h2⟩ := aux_runOps_some ops (Responder.new tx rx l2 s) rx rfl
  exact ⟨r2, h1, by simp [h2]⟩

theorem hasWork_iff_nonempty_witness :
    (Responder.new ⟨4, []⟩ [Pdu.control (ControlPdu.unsupported 5)] l2capNop ()).hasWork
        = some (Consumer.hasData [Pdu.control (ControlPdu.unsupported 5)],
            Responder.new ⟨4, []⟩ [Pdu.control (ControlPdu.unsupported 5)] l2capNop ())
      ∧ (Consumer.hasData [Pdu.control (ControlPdu.unsupported 5)] = true
          ↔ [Pdu.control (ControlPdu.unsupported 5)] ≠ ([] : List Pdu)) :=
  hasWork_iff_nonempty _ _ rfl

/-- The P-256 field prime. The module src/rubble/src/p256.rs wraps external
P-256 libraries; the curve constants are the ones of the standardized curve
the module names. -/
def p256P : Nat := 0xffffffff00000001000000000000000000000000ffffffffffffffffffffffff

/-- The coefficient b of the P-256 curve equation. -/
def p256B : Nat := 0x5ac635d8aa3a93e7b3ebbd55769886bc651d06b0cc53b0f63bce3c3e27d2604b

/-- The order of the P-256 base-point group. -/
def p256N : Nat := 0xffffffff00000000ffffffffffffffffbce6faada7179e84f3b9cac2fc632551

/-- The X coordinate of the P-256 base point. -/
def p256Gx : Nat := 0x6b17d1f2e12c4247f8bce6e563a440f277037d812deb33a0f4a13945d898c296

/-- The Y coordinate of the P-256 base point. -/
def p256Gy : Nat := 0x4fe342e2fe1a7f9b8ee7eb4a7c0f9e162bce33576b315ececbb6406837bf51f5

/-- Big-endian bytes to Nat. -/
def beBytesToNat (l : List Nat) : Nat := l.foldl (fun acc b => acc * 256 + b) 0

/-- Nat to w big-endian bytes. -/
def natToBEBytes (w n : Nat) : List Nat :=
  (List.range w).reverse.map fun i => n / 256 ^ i % 256

/-- A P-256 public key as struct PublicKey defines it: 64 raw bytes,
big-endian X then big-endian Y, with no format byte. -/
structure PublicKey where
  bytes : List Nat
deriving DecidableEq

/-- The X coordinate a public key encodes. -/
def PublicKey.x (k : PublicKey) : Nat := beBytesToNat (k.bytes.take 32)

/-- The Y coordinate a public key encodes. -/
def PublicKey.y (k : PublicKey) : Nat := beBytesToNat (k.bytes.drop 32)

/-- A 32-byte shared secret (struct SharedSecret). -/
structure SharedSecret where
  bytes : List Nat
deriving DecidableEq

/-- The validation error of agreement (struct InvalidPublicKey). -/
structure InvalidPublicKey where
deriving DecidableEq

/-- Mirror of InvalidPublicKey::new. -/
def InvalidPublicKey.new : InvalidPublicKey := ⟨⟩

/-- The affine P-256 curve equation on reduced coordinates:
y^2 = x^3 - 3x + b modulo the prime. -/
def onCurveNat (x y : Nat) : Bool :=
  decide ((y * y) % p256P = (x * x * x + (p256P - 3) * x + p256B) % p256P)

/-- Modelled from the spec: full validation of a foreign public key as the
contract of SecretKey::agree demands -- a well-formed 64-byte encoding with
canonical coordinates that satisfy the curve equation and are not the point
at infinity (all-zero encoding). The actual check runs inside the external
curve libraries the providers wrap. -/
def validPublicKey (k : PublicKey) : Bool :=
  decide (k.bytes.length = 64) && decide (k.x < p256P) && decide (k.y < p256P) &&
    onCurveNat k.x k.y && !(decide (k.x = 0) && decide (k.y = 0))

/-- Modelled from the spec: SecretKey::agree of a conformant provider. The
secret key and the derivation of the shared secret from a valid point (the
scalar multiplication the external library performs) are abstracted as the
parameter derive; the validation gate is the contract of section 4.2: a
SharedSecret exactly on a valid key, InvalidPublicKey otherwise. -/
def agreeChecked (derive : Nat → PublicKey → SharedSecret) (sk : Nat)
    (foreign : PublicKey) : Except InvalidPublicKey SharedSecret :=
  if validPublicKey foreign then .ok (derive sk foreign) else .error InvalidPublicKey.new

/-- The 64-byte encoding of the P-256 base point, a concrete valid key. -/
def basePointKey : PublicKey := ⟨natToBEBytes 32 p256Gx ++ natToBEBytes 32 p256Gy⟩

/-- A decoded affine point as the external library represents it. -/
structure CurvePoint where
  px : Nat
  py : Nat
deriving DecidableEq

/-- Modelled from the source comment in NistySecretKey::agree: the external
try_from_bytes conversion succeeds exactly on a valid public key. -/
def nistyTryFromBytes (k : PublicKey) : Option CurvePoint :=
  if validPublicKey k then some ⟨k.x, k.y⟩ else none

/-- Modelled from the source comment in NistySecretKey::agree: the inner
agreement of the external library fails only on the point at infinity. -/
def nistyRawAgree (innerMul : Nat → CurvePoint → SharedSecret) (sk : Nat)
    (pt : CurvePoint) : Option SharedSecret :=
  if pt.px = 0 ∧ pt.py = 0 then none else some (innerMul sk pt)

/-- Mirror of NistySecretKey::agree: convert the foreign key (a conversion
failure becomes the InvalidPublicKey error), then unwrap the inner
agreement; a none result models the unwrap failing, which the claimed
invariant rules out. -/
def nistyAgree (innerMul : Nat → CurvePoint → SharedSecret) (sk : Nat)
    (k : PublicKey) : Option (Except InvalidPublicKey SharedSecret) :=
  match nistyTryFromBytes k with
  | none => some (.error InvalidPublicKey.new)
  | some pt =>
    match nistyRawAgree innerMul sk pt with
    | none => none
    | some s => some (.ok s)

/-- Modelled from the spec: key generation in the base-point subgroup of
the external curve library, which is cyclic of order p256N; points are
represented by their discrete logarithm, so the keypair of secret scalar d
is (d, the residue of d), standing for the point d times the base point. -/
def genDlog (d : Nat) : Nat × Nat := (d, d % p256N)

/-- Modelled from the spec: ECDH agreement in the same representation: the
shared point of secret d and public point Q is d times Q, and the shared
secret is the encoding of that point (the x-coordinate extraction,
abstracted as xOut). -/
def agreeDlog (xOut : Nat → SharedSecret) (d : Nat) (q : Nat) : SharedSecret :=
  xOut (d * q % p256N)

/-- The fixed pregenerated RNG byte stream of run_tests (the static RNG
array in src/rubble/src/p256.rs). -/
def testRngBytes : List Nat :=
  [0x1e, 0x66, 0x81, 0xb6, 0xa3, 0x4e, 0x06, 0x97, 0x75, 0xbe, 0xd4, 0x5c, 0xf9, 0x52, 0x3f,
   0xf1, 0x5b, 0x6a, 0x72, 0xe2, 0xb8, 0x35, 0xb3, 0x29, 0x5e, 0xe0, 0xbb, 0x92, 0x35, 0xa5,
   0xb9, 0x60, 0xc9, 0xaf, 0xe2, 0x72, 0x12, 0xf1, 0xc4, 0xfc, 0x10, 0x2d, 0x63, 0x2f, 0x05,
   0xd6, 0xe5, 0x0a, 0xbf, 0x2c, 0xb9, 0x02, 0x3a, 0x67, 0x23, 0x63, 0x36, 0x7a, 0x62, 0xe6,
   0x63, 0xce, 0x28, 0x98]

/-- Mirror of Rng::fill_bytes in run_tests: a request for more bytes than
remain aborts (none); so does, through the zero chunk size the copy loop
would use, the corner of a zero-length request on an exhausted stream;
otherwise the request takes the next n bytes of the stream. -/
def Rng.fill (stream : List Nat) (n : Nat) : Option (List Nat × List Nat) :=
  if stream.length < n then none
  else if stream.length = 0 ∧ n = 0 then none
  else some (stream.take n, stream.drop n)

/-- A provider as run_tests drives it, over an abstract secret-key type:
the number of RNG bytes one key generation consumes (the spec requires
deterministic consumption of the supplied stream), the keypair as a
function of the consumed bytes, and the agreement operation (the traits
P256Provider and SecretKey). -/
structure ProviderModel (SK : Type) where
  need : Nat
  gen : List Nat → SK × PublicKey
  agree : SK → PublicKey → Except InvalidPublicKey SharedSecret

/-- The all-zero public key (point at infinity) run_tests rejects. -/
def inftyKey : PublicKey := ⟨List.replicate 64 0⟩

/-- The X coordinate bytes of the malicious off-curve point of run_tests. -/
def attackX : List Nat :=
  [0xb7, 0x0b, 0xf0, 0x43, 0xc1, 0x44, 0x93, 0x57, 0x56, 0xf8, 0xf4, 0x57, 0x8c, 0x36, 0x9c,
   0xf9, 0x60, 0xee, 0x51, 0x0a, 0x5a, 0x0f, 0x90, 0xe9, 0x3a, 0x37, 0x3a, 0x21, 0xf0, 0xd1,
   0x39, 0x7f]

/-- The Y coordinate bytes of the malicious off-curve point of run_tests. -/
def attackY : List Nat :=
  [0x4a, 0x2e, 0x0d, 0xed, 0x57, 0xa5, 0x15, 0x6b, 0xb8, 0x2e, 0xb4, 0x31, 0x4c, 0x37, 0xfd,
   0x41, 0x55, 0x39, 0x5a, 0x7e, 0x51, 0x98, 0x8a, 0xf2, 0x89, 0xcc, 0xe5, 0x31, 0xb9, 0xc1,
   0x71, 0x92]

/-- The malicious off-curve key run_tests builds from attackX and attackY. -/
def attackKey : PublicKey := ⟨attackX ++ attackY⟩

/-- The bytes the first key generation of run_tests consumes. -/
def seed1 (n : Nat) : List Nat := testRngBytes.take n

/-- The bytes the second key generation of run_tests consumes. -/
def seed2 (n : Nat) : List Nat := (testRngBytes.drop n).take n

/-- Mirror of run_tests: drive the provider with the fixed byte stream and
check, in the order of the source, key distinctness, two-sided agreement
equality, rejection of the point at infinity (on a key generated from a
fresh copy of the stream) and rejection of the off-curve point (again from
a fresh copy); false means the run aborts: a failed assertion, a failed
unwrap of an agreement, or exhausted entropy. -/
def runTestsModel {SK : Type} (P : ProviderModel SK) : Bool :=
  match Rng.fill testRngBytes P.need with
  | none => false
  | some (b1, rng1) =>
    match Rng.fill rng1 P.need with
    | none => false
    | some (b2, _) =>
      let kp1 := P.gen b1
      let kp2 := P.gen b2
      if kp1.2.bytes = kp2.2.bytes then false
      else
        match P.agree kp1.1 kp2.2, P.agree kp2.1 kp1.2 with
        | .ok sh1, .ok sh2 =>
          if sh1.bytes = sh2.bytes then
            match Rng.fill testRngBytes P.need with
            | none => false
            | some (b3, _) =>
              match P.agree (P.gen b3).1 inftyKey with
              | .error _ =>
                match Rng.fill testRngBytes P.need with
                | none => false
                | some (b4, _) =>
                  match P.agree (P.gen b4).1 attackKey with
                  | .error _ => true
                  | .ok _ => false
              | .ok _ => false
          else false
        | _, _ => false

/-- C1: the modelled conformant agree validates the foreign 64-byte key:
any invalid key -- in particular the all-zero point-at-infinity encoding
and any key whose coordinates do not satisfy the P-256 curve equation --
yields the InvalidPublicKey error, the only error value the result type
admits, and a valid foreign key yields a shared secret. The base-point
encoding witnesses that valid keys exist. -/
theorem agree_validates (derive : Nat → PublicKey → SharedSecret) (sk : Nat)
    (k : PublicKey) :
    (validPublicKey k = false → agreeChecked derive sk k = .error InvalidPublicKey.new) ∧
    (validPublicKey k = true → agreeChecked derive sk k = .ok (derive sk k)) ∧
    (k.bytes = List.replicate 64 0 → validPublicKey k = false) ∧
    (onCurveNat k.x k.y = false → validPublicKey k = false) ∧
    (∀ e, agreeChecked derive sk k = .error e → e = InvalidPublicKey.new) ∧
    validPublicKey basePointKey = true := by
  refine ⟨?_, ?_, ?_, ?_, ?_, by decide⟩
  · intro h
    simp [agreeChecked, h]
  · intro h
    simp [agreeChecked, h]
  · intro h
    obtain ⟨bs⟩ := k
    have h2 : bs = List.replicate 64 0 := h
    subst h2
    decide
  · intro h
    simp [validPublicKey, h]
  · intro e _
    cases e
    rfl

/-- C4: ECDH symmetry in the modelled base-point subgroup (the curve
arithmetic itself is delegated to external libraries and out of scope, so
the subgroup is modelled through discrete logarithms): for any two secret
scalars, agreeing the secret of one party with the generated public key of
the other gives the same shared secret either way. -/
theorem ecdh_symmetric (xOut : Nat → SharedSecret) (a b : Nat) :
    agreeDlog xOut (genDlog a).1 (genDlog b).2
      = agreeDlog xOut (genDlog b).1 (genDlog a).2 := by
  have key : ∀ x y : Nat, x * (y % p256N) % p256N = x * y % p256N := by
    intro x y
    conv_rhs => rw [Nat.mul_mod]
    conv_lhs => rw [Nat.mul_mod, Nat.mod_mod_of_dvd _ dvd_rfl]
  simp only [agreeDlog, genDlog]
  rw [key, key, Nat.mul_comm]

/-- C9: panic freedom on attacker-controlled input: process_one and
has_work never abort on a populated responder, whatever PDUs arrive; the
modelled nisty agree never reaches a failing unwrap, since a key that
passes the conversion cannot be the point at infinity (indeed (0, 0) does
not satisfy the curve equation); and the test-only RNG aborts on a request
that exceeds the remaining pregenerated entropy, and for a positive
request only then. -/
theorem no_panic_on_input :
    (∀ (stream : List Nat) (n : Nat), stream.length < n → Rng.fill stream n = none) ∧
    (∀ (stream : List Nat) (n : Nat), 0 < n →
        (Rng.fill stream n = none ↔ stream.length < n)) ∧
    onCurveNat 0 0 = false ∧
    (∀ (innerMul : Nat → CurvePoint → SharedSecret) (sk : Nat) (k : PublicKey),
        nistyAgree innerMul sk k ≠ none) ∧
    (∀ (σ : Type) (r : Responder σ) (q : Consumer), r.rx = some q →
        r.processOne ≠ none ∧ r.hasWork ≠ none) := by
  refine ⟨?_, ?_, by decide, ?_, ?_⟩
  · intro s n h
    simp [Rng.fill, h]
  · intro s n hn
    constructor
    · intro h
      rcases Nat.lt_or_ge s.length n with hlt | hge
      · exact hlt
      · exfalso
        have hs : Rng.fill s n = some (s.take n, s.drop n) := by
          unfold Rng.fill
          rw [if_neg (Nat.not_lt.mpr hge), if_neg (by omega)]
        rw [hs] at h
        exact Option.some_ne_none _ h
    · intro hlt
      simp [Rng.fill, hlt]
  · intro innerMul sk k
    unfold nistyAgree nistyTryFromBytes
    by_cases hv : validPublicKey k
    · rw [if_pos hv]
      have hx : ¬(k.x = 0 ∧ k.y = 0) := by
        rintro ⟨h0, h1⟩
        unfold validPublicKey at hv
        simp [h0, h1] at hv
      simp [nistyRawAgree, hx]
    · rw [if_neg hv]
      simp
  · intro σ r q h
    obtain ⟨b, r2, he, _⟩ := aux_processOne_some r q h
    obtain ⟨b2, r3, hw, _⟩ := aux_hasWork_some r q h
    exact ⟨by simp [he], by simp [hw]⟩

/-- C5: run_tests drives the provider with the fixed deterministic byte
stream and terminates normally exactly when the entropy suffices for the
two key generations and, in order, the two generated public keys differ,
the two-sided agreements both succeed with equal shared secrets, agreement
with the all-zero point-at-infinity key fails, and agreement with the fixed
off-curve point fails; the stated byte prefixes identify that point, and
its coordinates indeed violate the curve equation. -/
theorem runTests_characterization {SK : Type} (P : ProviderModel SK) :
    (runTestsModel P = true ↔
      (2 * P.need ≤ 64 ∧
        (P.gen (seed1 P.need)).2.bytes ≠ (P.gen (seed2 P.need)).2.bytes ∧
        (∃ sh1 sh2,
          P.agree (P.gen (seed1 P.need)).1 (P.gen (seed2 P.need)).2 = .ok sh1 ∧
          P.agree (P.gen (seed2 P.need)).1 (P.gen (seed1 P.need)).2 = .ok sh2 ∧
          sh1.bytes = sh2.bytes) ∧
        (∃ e, P.agree (P.gen (seed1 P.need)).1 inftyKey = .error e) ∧
        (∃ e, P.agree (P.gen (seed1 P.need)).1 attackKey = .error e))) ∧
    onCurveNat (beBytesToNat attackX) (beBytesToNat attackY) = false ∧
    attackX.take 8 = [0xb7, 0x0b, 0xf0, 0x43, 0xc1, 0x44, 0x93, 0x57] ∧
    attackY.take 8 = [0x4a, 0x2e, 0x0d, 0xed, 0x57, 0xa5, 0x15, 0x6b] ∧
    inftyKey.bytes = List.replicate 64 0 ∧
    testRngBytes.length = 64 := by
  have hlen : testRngBytes.length = 64 := by decide
  refine ⟨?_, by decide, by decide, by decide, by decide, hlen⟩
  by_cases hneed : 2 * P.need ≤ 64
  · have hf1 : Rng.fill testRngBytes P.need
        = some (seed1 P.need, testRngBytes.drop P.need) := by
      unfold Rng.fill
      rw [if_neg (by omega), if_neg (by omega)]
      rfl
    have hd : (testRngBytes.drop P.need).length = 64 - P.need := by
      rw [List.length_drop, hlen]
    have hf2 : Rng.fill (testRngBytes.drop P.need) P.need
        = some (seed2 P.need, (testRngBytes.drop P.need).drop P.need) := by
      unfold Rng.fill
      rw [if_neg (by omega), if_neg (by omega)]
      rfl
    unfold runTestsModel
    simp only [hf1, hf2]
    by_cases hne : (P.gen (seed1 P.need)).2.bytes = (P.gen (seed2 P.need)).2.bytes
    · simp [hne, hneed]
    · cases ha1 : P.agree (P.gen (seed1 P.need)).1 (P.gen (seed2 P.need)).2 with
      | error e1 => simp [ha1, hne, hneed]
      | ok sh1 =>
        cases ha2 : P.agree (P.gen (seed2 P.need)).1 (P.gen (seed1 P.need)).2 with
        | error e2 => simp [ha1, ha2, hne, hneed]
        | ok sh2 =>
          by_cases hsh : sh1.bytes = sh2.bytes
          · cases hi : P.agree (P.gen (seed1 P.need)).1 inftyKey with
            | ok s3 => simp [ha1, ha2, hne, hneed, hsh, hi]
            | error e3 =>
              cases hatk : P.agree (P.gen (seed1 P.need)).1 attackKey with
              | ok s4 => simp [ha1, ha2, hne, hneed, hsh, hi, hatk]
              | error e4 =>
                simp [ha1, ha2, hne, hneed, hsh, hi, hatk]
                exact ⟨e4, trivial⟩
          · simp [ha1, ha2, hne, hneed, hsh]
  · by_cases h64 : testRngBytes.length < P.need
    · unfold runTestsModel Rng.fill
      rw [if_pos h64]
      simp [hneed]
    · have hf1 : Rng.fill testRngBytes P.need
          = some (seed1 P.need, testRngBytes.drop P.need) := by
        unfold Rng.fill
        rw [if_neg h64, if_neg (by omega)]
        rfl
      have hd : (testRngBytes.drop P.need).length = 64 - P.need := by
        rw [List.length_drop, hlen]
      have hf2 : Rng.fill (testRngBytes.drop P.need) P.need = none := by
        unfold Rng.fill
        rw [if_pos (by omega)]
      unfold runTestsModel
      simp [hf1, hf2, hneed]

end Rubble
